import Mathlib

/-!
Shallow embedding of `BiblioPixelAnimations/matrix/ImageAnim.py`
(class `ImageAnim`: `_getBufferFromImage`, `__init__`, `preRun`, `step`)
together with theorems settling the specification claims about it.

Conventions:
* machine integers are `Nat`/`Int`; Python 2 `/` on the nonnegative
  operands appearing here agrees with Lean's `Int` division;
* `(r * a) >> 8` is `(r * a) >>> 8` on `Nat`;
* the 256-entry gamma lookup table is a function `Nat → Nat`;
* Python runtime errors are modelled by `Except PyErr` / `Option` where
  the embedded code can actually reach them.
-/

namespace ImageAnim

/-- An RGB color value, a 3-tuple of 8-bit channels. -/
structure Color where
  r : Nat
  g : Nat
  b : Nat
  deriving DecidableEq, Repr

/-- `colors.Off = (0, 0, 0)`. -/
def Off : Color := ⟨0, 0, 0⟩

/-- Modelled from the spec: `bibliopixel.colors.color_scale` is external to
this repository (the `bibliopixel` package); spec §4.1 step 5 describes the
scaling used for brightness as floor of `channel * brightness / 255`. -/
def color_scale (c : Color) (level : Nat) : Color :=
  ⟨c.r * level / 255, c.g * level / 255, c.b * level / 255⟩

/-- One RGBA sample of a decoded source frame (`frame.getpixel`). -/
structure RGBA where
  r : Nat
  g : Nat
  b : Nat
  a : Nat
  deriving DecidableEq, Repr

/-- A decoded source frame: `img.size`, dense RGBA samples reachable via
`frame.getpixel((x, y))`, and the optional `img.info['duration']`. -/
structure SourceFrame where
  width : Nat
  height : Nat
  pixels : Nat → Nat → RGBA
  duration : Option Nat

/-- The LED layout (`self._led`): `width`, `height`, `matrix_map[y][x]`,
`numLEDs`, the 256-entry `driver[0].gamma` table and `masterBrightness`. -/
structure Layout where
  width : Nat
  height : Nat
  matrix_map : List (List Nat)
  numLEDs : Nat
  gamma : Nat → Nat
  masterBrightness : Nat

/-- Modelled from the spec: `bufByteCount` is a field of the external
`bibliopixel` base class; spec §3 fixes the buffer length as
`3 × numPhysicalPixels` of the target layout. -/
def bufByteCount (led : Layout) : Nat := 3 * led.numLEDs

/-- Python `range(a, b)` over integers: `[a, a+1, ..., b-1]`, empty if `b ≤ a`. -/
def intRange (a b : Int) : List Int :=
  (List.range (b - a).toNat).map fun (i : Nat) => a + (i : Int)

/-- `self._led.matrix_map[y][x]`, looked up at in-range coordinates. -/
def mapIdx (led : Layout) (y x : Int) : Nat :=
  (led.matrix_map.getD y.toNat []).getD x.toNat 0

/-- Lines 43-44: `w = led.width - offset[0]; if img.size[0] < w: w = img.size[0]`. -/
def overlapW (led : Layout) (frame : SourceFrame) (ox : Int) : Int :=
  if (frame.width : Int) < (led.width : Int) - ox then (frame.width : Int)
  else (led.width : Int) - ox

/-- Lines 46-48: `h = led.height - offset[1]; if img.size[1] < h: h = img.size[1]`. -/
def overlapH (led : Layout) (frame : SourceFrame) (oy : Int) : Int :=
  if (frame.height : Int) < (led.height : Int) - oy then (frame.height : Int)
  else (led.height : Int) - oy

/-- Channel `c ∈ {0,1,2}` of a color: the three bytes written per pixel. -/
def chan (c : Nat) (col : Color) : Nat :=
  if c = 0 then col.r else if c = 1 then col.g else col.b

/-- Lines 69-77: the composited color of one covered pixel.  The `a == 0`
branch substitutes `self._bgcolor`; otherwise premultiply `(r*a) >> 8`;
then, `if self._bright != 255`, scale by `self._bright` — note that this
second scaling also applies to the substituted background color. -/
def compositePixel (bright : Nat) (bg : Color) (px : RGBA) : Color :=
  let c : Color :=
    if px.a = 0 then bg
    else ⟨(px.r * px.a) >>> 8, (px.g * px.a) >>> 8, (px.b * px.a) >>> 8⟩
  if bright ≠ 255 then color_scale c bright else c

/-- Lines 79-81 (and 57-59): write the three gamma-corrected bytes of `col`
at positions `pixel*3`, `pixel*3+1`, `pixel*3+2` of the buffer. -/
def writePixel (gamma : Nat → Nat) (buf : List Nat) (pixel : Nat) (col : Color) : List Nat :=
  ((buf.set (pixel * 3) (gamma col.r)).set (pixel * 3 + 1) (gamma col.g)).set
    (pixel * 3 + 2) (gamma col.b)

/-- Lines 53-59: `buffer = [0]*bufByteCount`, then, only when the (already
brightness-scaled) `self._bgcolor` differs from `(0,0,0)`, fill every LED
with the gamma of the background color. -/
def initialBuffer (led : Layout) (bg : Color) : List Nat :=
  if bg ≠ Off then
    (List.range led.numLEDs).foldl (fun buf i => writePixel led.gamma buf i bg)
      (List.replicate (bufByteCount led) 0)
  else
    List.replicate (bufByteCount led) 0

/-- The loop body of lines 64-81 for one coordinate `(x, y)`:
skip when `x < 0 or y < 0`, else write the composited pixel at
`matrix_map[y][x]`. -/
def renderStep (led : Layout) (bright : Nat) (bg : Color) (frame : SourceFrame)
    (ox oy : Int) (buf : List Nat) (xy : Int × Int) : List Nat :=
  if xy.1 < 0 ∨ xy.2 < 0 then buf
  else
    writePixel led.gamma buf (mapIdx led xy.2 xy.1)
      (compositePixel bright bg (frame.pixels (xy.1 - ox).toNat (xy.2 - oy).toNat))

/-- The coordinates visited by the nested loops of lines 64-65, in source
order (`x` outer, `y` inner): `x ∈ range(ox, w+ox)`, `y ∈ range(oy, h+oy)`. -/
def renderCoords (led : Layout) (frame : SourceFrame) (ox oy : Int) : List (Int × Int) :=
  (intRange ox (overlapW led frame ox + ox)).flatMap fun x =>
    (intRange oy (overlapH led frame oy + oy)).map fun y => (x, y)

/-- `_getBufferFromImage(self, img, offset)`, lines 37-83: returns the
optional frame duration and the composited output buffer.  `bg` is the
already-scaled `self._bgcolor` and `bright` is `self._bright`. -/
def getBufferFromImage (led : Layout) (frame : SourceFrame) (offset : Int × Int)
    (bg : Color) (bright : Nat) : Option Nat × List Nat :=
  (frame.duration,
    (renderCoords led frame offset.1 offset.2).foldl
      (renderStep led bright bg frame offset.1 offset.2) (initialBuffer led bg))

/-- Lines 100-102: `self._bright = brightness; if self._bright == 255 and
led.masterBrightness != 255: self._bright = led.masterBrightness`. -/
def initBright (led : Layout) (brightness : Nat) : Nat :=
  if brightness = 255 ∧ led.masterBrightness ≠ 255 then led.masterBrightness else brightness

/-- Line 104: `self._bgcolor = colors.color_scale(bgcolor, self._bright)`. -/
def initBgcolor (led : Layout) (bgcolor : Color) (brightness : Nat) : Color :=
  color_scale bgcolor (initBright led brightness)

/-- One frame rendered exactly as the constructor renders it: the
background is pre-scaled once (line 104) and the same effective brightness
is passed to `_getBufferFromImage`. -/
def renderFrame (led : Layout) (frame : SourceFrame) (offset : Int × Int)
    (bgcolor : Color) (brightness : Nat) : Option Nat × List Nat :=
  getBufferFromImage led frame offset (initBgcolor led bgcolor brightness)
    (initBright led brightness)

/-- Lines 112-119 (GIF branch): when the offset *value* is `(0, 0)`,
replace it by the auto-center offset computed from the container size;
Python 2 `/` on the nonnegative operands here is floor division. -/
def gifAutoOffset (led : Layout) (offset : Int × Int) (imgW imgH : Nat) : Int × Int :=
  if offset = (0, 0) then
    let w : Int :=
      if (imgW : Int) < (led.width : Int) then ((led.width : Int) - (imgW : Int)) / 2 else 0
    let h : Int :=
      if (imgH : Int) < (led.height : Int) then ((led.height : Int) - (imgH : Int)) / 2 else 0
    (w, h)
  else offset

/-- Python runtime errors reachable from the embedded constructor code. -/
inductive PyErr where
  | valueError : String → PyErr
  | attributeError : String → PyErr
  deriving DecidableEq, Repr

/-- The loop of lines 133-140 (folder-of-bitmaps branch).  The loop
variable `img` ranges over the *path strings* of `imageList`; when the
offset equals `(0, 0)` the condition on line 135 evaluates `img.size[0]`
on a `str`, which raises `AttributeError` in Python.  Otherwise the body
renders the decoded image at the given offset. -/
def folderLoop (led : Layout) (decode : String → SourceFrame) (bg : Color) (bright : Nat)
    (offset : Int × Int) : List String → Except PyErr (List (Option Nat × List Nat))
  | [] => .ok []
  | img :: rest =>
    if offset = (0, 0) then
      .error (.attributeError "str object has no attribute size")
    else
      match folderLoop led decode bg bright offset rest with
      | .error e => .error e
      | .ok bufs => .ok (getBufferFromImage led (decode img) offset bg bright :: bufs)

/-- Lines 126-140: the still-image (folder) branch of `__init__`:
`ValueError("No images found!")` when the sorted glob is empty, otherwise
the per-image loop. -/
def folderInit (led : Layout) (decode : String → SourceFrame) (imageList : List String)
    (offset : Int × Int) (bgcolor : Color) (brightness : Nat) :
    Except PyErr (List (Option Nat × List Nat)) :=
  if imageList.length = 0 then .error (.valueError "No images found!")
  else
    folderLoop led decode (initBgcolor led bgcolor brightness)
      (initBright led brightness) offset imageList

/-- A rendered frame: `(duration, buffer)` as stored in `self._images`. -/
abbrev RenderedFrame := Option Nat × List Nat

/-- The playback state: `self._curImage` and `self.animComplete`. -/
structure AnimState where
  curImage : Nat
  animComplete : Bool
  deriving DecidableEq, Repr

/-- The state right after construction.  `_curImage = 0` is line 142;
`animComplete = false` is modelled from the spec (§4.2): the flag lives in
the external `bibliopixel` base class, which initializes it to `False`. -/
def initState : AnimState := ⟨0, false⟩

/-- `preRun(self)`, lines 144-145: only `self._curImage = 0` is assigned;
`animComplete` is left untouched. -/
def preRun (s : AnimState) : AnimState := ⟨0, s.animComplete⟩

/-- `step(self, amt=1)`, lines 147-158: display `self._images[self._curImage]`
(an out-of-range cursor would raise `IndexError`, hence `Option`), advance
the cursor, and on wrap-around reset it to 0 and set `animComplete = True`.
`self._count` equals the length of `self._images` by construction. -/
def step (images : List RenderedFrame) (s : AnimState) :
    Option (AnimState × RenderedFrame) :=
  match images[s.curImage]? with
  | none => none
  | some frame =>
    let cur := s.curImage + 1
    some (if images.length ≤ cur then ⟨0, true⟩ else ⟨cur, s.animComplete⟩, frame)

/-- `n` consecutive `step` calls; `none` if any of them would raise. -/
def advanceN (images : List RenderedFrame) : Nat → AnimState → Option AnimState
  | 0, s => some s
  | n + 1, s => (step images s).bind fun sf => advanceN images n sf.1

/-- The `animComplete` flag observed after `n` `step` calls from the
freshly-constructed state. -/
def completedAfter (images : List RenderedFrame) (n : Nat) : Option Bool :=
  (advanceN images n initState).map fun s => s.animComplete

/-- The `(duration, buffer)` pair displayed by the `m`-th `step` call
(`m ≥ 1`) from the freshly-constructed state. -/
def nthCallFrame (images : List RenderedFrame) (m : Nat) : Option RenderedFrame :=
  (advanceN images (m - 1) initState).bind fun s => (step images s).map Prod.snd

/-- The loop coordinate `xy` writes to physical pixel `p`: it is not
skipped by the `x < 0 or y < 0` guard and its `matrix_map` entry is `p`. -/
def touches (led : Layout) (p : Nat) (xy : Int × Int) : Prop :=
  ¬(xy.1 < 0 ∨ xy.2 < 0) ∧ mapIdx led xy.2 xy.1 = p

/-- A 1×1 layout with identity gamma table and master brightness 255. -/
def led1 : Layout := ⟨1, 1, [[0]], 1, fun n => n, 255⟩

/-- A 1×1 layout whose gamma table sends every value to 1. -/
def ledC : Layout := ⟨1, 1, [[0]], 1, fun _ => 1, 255⟩

/-- A 2×2 layout with identity gamma table. -/
def led2 : Layout := ⟨2, 2, [[0, 1], [2, 3]], 4, fun n => n, 255⟩

/-- An 8×8 layout (the matrix map is unused by the offset computation). -/
def led8 : Layout := ⟨8, 8, [], 64, fun n => n, 255⟩

/-- A 1×1 layout with identity gamma table and master brightness 128. -/
def led128 : Layout := ⟨1, 1, [[0]], 1, fun n => n, 128⟩

/-- A 1×1 fully transparent source pixel with nonzero RGB samples. -/
def frameTr : SourceFrame := ⟨1, 1, fun _ _ => ⟨7, 8, 9, 0⟩, none⟩

/-- A 1×1 fully opaque white source pixel. -/
def white1 : SourceFrame := ⟨1, 1, fun _ _ => ⟨255, 255, 255, 255⟩, none⟩

/-- A zero-width (hence zero-area) source frame carrying a duration. -/
def frame0 : SourceFrame := ⟨0, 5, fun _ _ => ⟨9, 9, 9, 255⟩, some 40⟩

/-! ## Generic lemmas about index-addressed buffer folds -/

theorem foldl_length {α : Type} (f : List Nat → α → List Nat) (L : List α) (buf : List Nat)
    (Hlen : ∀ buf a, (f buf a).length = buf.length) :
    (L.foldl f buf).length = buf.length := by
  induction L generalizing buf with
  | nil => rfl
  | cons a rest ih => rw [List.foldl_cons, ih, Hlen]

theorem foldl_getElem_untouched {α : Type} (f : List Nat → α → List Nat) (j : Nat)
    (P : α → Prop) (L : List α) (buf : List Nat)
    (H1 : ∀ buf a, a ∈ L → ¬ P a → (f buf a)[j]? = buf[j]?)
    (hL : ∀ a ∈ L, ¬ P a) :
    (L.foldl f buf)[j]? = buf[j]? := by
  induction L generalizing buf with
  | nil => rfl
  | cons a rest ih =>
    rw [List.foldl_cons,
      ih _ (fun buf b hb => H1 buf b (List.mem_cons_of_mem _ hb))
        (fun b hb => hL b (List.mem_cons_of_mem _ hb))]
    exact H1 buf a (List.mem_cons_self _ _) (hL a (List.mem_cons_self _ _))

theorem foldl_getElem_write {α : Type} (f : List Nat → α → List Nat) (j v : Nat)
    (P : α → Prop) (L : List α) (buf : List Nat)
    (Hlen : ∀ buf a, (f buf a).length = buf.length)
    (H1 : ∀ buf a, a ∈ L → ¬ P a → (f buf a)[j]? = buf[j]?)
    (H2 : ∀ buf a, a ∈ L → P a → j < buf.length → (f buf a)[j]? = some v)
    (hj : j < buf.length) (hex : ∃ a ∈ L, P a) :
    (L.foldl f buf)[j]? = some v := by
  induction L generalizing buf with
  | nil => simp at hex
  | cons a rest ih =>
    rw [List.foldl_cons]
    have hlen' : j < (f buf a).length := by rw [Hlen]; exact hj
    by_cases ha : P a
    · by_cases hrest : ∃ b ∈ rest, P b
      · exact ih _ (fun buf b hb hPb => H1 buf b (List.mem_cons_of_mem _ hb) hPb)
          (fun buf b hb hPb hlt => H2 buf b (List.mem_cons_of_mem _ hb) hPb hlt) hlen' hrest
      · rw [foldl_getElem_untouched f j P rest (f buf a)
          (fun buf b hb => H1 buf b (List.mem_cons_of_mem _ hb))
          (fun b hb hPb => hrest ⟨b, hb, hPb⟩)]
        exact H2 buf a (List.mem_cons_self _ _) ha hj
    · obtain ⟨b, hb, hPb⟩ := hex
      rcases List.mem_cons.mp hb with rfl | hbr
      · exact absurd hPb ha
      · exact ih _ (fun buf b hb hPb => H1 buf b (List.mem_cons_of_mem _ hb) hPb)
          (fun buf b hb hPb hlt => H2 buf b (List.mem_cons_of_mem _ hb) hPb hlt) hlen'
          ⟨b, hbr, hPb⟩

/-! ## Characterization of the write primitives -/

theorem writePixel_length (g : Nat → Nat) (buf : List Nat) (p : Nat) (col : Color) :
    (writePixel g buf p col).length = buf.length := by
  simp [writePixel]

theorem writePixel_getElem_other (g : Nat → Nat) (buf : List Nat) (p : Nat) (col : Color)
    (j : Nat) (h0 : j ≠ p * 3) (h1 : j ≠ p * 3 + 1) (h2 : j ≠ p * 3 + 2) :
    (writePixel g buf p col)[j]? = buf[j]? := by
  unfold writePixel
  rw [List.getElem?_set_ne (by omega), List.getElem?_set_ne (by omega),
    List.getElem?_set_ne (by omega)]

theorem writePixel_getElem_chan (g : Nat → Nat) (buf : List Nat) (p : Nat) (col : Color)
    (c : Nat) (hc : c < 3) (h : p * 3 + c < buf.length) :
    (writePixel g buf p col)[p * 3 + c]? = some (g (chan c col)) := by
  unfold writePixel chan
  interval_cases c
  · rw [List.getElem?_set_ne (by omega), List.getElem?_set_ne (by omega)]
    simp only [Nat.add_zero] at h ⊢
    rw [List.getElem?_set_eq_of_lt _ (by simpa using h)]
    simp
  · rw [List.getElem?_set_ne (by omega)]
    rw [List.getElem?_set_eq_of_lt _ (by simpa using h)]
    simp
  · rw [List.getElem?_set_eq_of_lt _ (by simpa using h)]
    simp

theorem renderStep_length (led : Layout) (bright : Nat) (bg : Color) (frame : SourceFrame)
    (ox oy : Int) (buf : List Nat) (xy : Int × Int) :
    (renderStep led bright bg frame ox oy buf xy).length = buf.length := by
  unfold renderStep
  split
  · rfl
  · exact writePixel_length _ _ _ _

theorem renderStep_untouched (led : Layout) (bright : Nat) (bg : Color) (frame : SourceFrame)
    (ox oy : Int) (buf : List Nat) (xy : Int × Int) (p c : Nat) (hc : c < 3)
    (h : ¬ touches led p xy) :
    (renderStep led bright bg frame ox oy buf xy)[p * 3 + c]? = buf[p * 3 + c]? := by
  unfold renderStep
  split
  · rfl
  · rename_i hneg
    have hne : mapIdx led xy.2 xy.1 ≠ p := fun hEq => h ⟨hneg, hEq⟩
    exact writePixel_getElem_other _ _ _ _ _ (by omega) (by omega) (by omega)

theorem renderStep_touch (led : Layout) (bright : Nat) (bg : Color) (frame : SourceFrame)
    (ox oy : Int) (buf : List Nat) (xy : Int × Int) (p c : Nat) (hc : c < 3)
    (ht : touches led p xy) (hlen : p * 3 + c < buf.length) :
    (renderStep led bright bg frame ox oy buf xy)[p * 3 + c]? =
      some (led.gamma (chan c (compositePixel bright bg
        (frame.pixels (xy.1 - ox).toNat (xy.2 - oy).toNat)))) := by
  unfold renderStep
  rw [if_neg ht.1, ht.2]
  exact writePixel_getElem_chan _ _ _ _ _ hc hlen

theorem initialBuffer_length (led : Layout) (bg : Color) :
    (initialBuffer led bg).length = bufByteCount led := by
  unfold initialBuffer
  split
  · rw [foldl_length _ _ _ (fun buf i => writePixel_length _ _ _ _)]
    simp
  · simp

theorem initialBuffer_getElem (led : Layout) (bg : Color) (p c : Nat)
    (hp : p < led.numLEDs) (hc : c < 3) (hbg : bg ≠ Off) :
    (initialBuffer led bg)[p * 3 + c]? = some (led.gamma (chan c bg)) := by
  unfold initialBuffer
  rw [if_pos hbg]
  apply foldl_getElem_write _ _ _ (fun i => i = p)
  · exact fun buf i => writePixel_length _ _ _ _
  · intro buf i _ hne
    exact writePixel_getElem_other _ _ _ _ _ (by omega) (by omega) (by omega)
  · intro buf i _ hip hlt
    subst hip
    exact writePixel_getElem_chan _ _ _ _ _ hc hlt
  · simp only [List.length_replicate, bufByteCount]
    omega
  · exact ⟨p, List.mem_range.mpr hp, rfl⟩

theorem initialBuffer_getElem_off (led : Layout) (j : Nat) (hj : j < bufByteCount led) :
    (initialBuffer led Off)[j]? = some 0 := by
  unfold initialBuffer
  rw [if_neg (by simp)]
  simp [List.getElem?_replicate, hj]

/-! ## Membership in the loop coordinate list -/

theorem mem_intRange {a b i : Int} : i ∈ intRange a b ↔ a ≤ i ∧ i < b := by
  unfold intRange
  simp only [List.mem_map, List.mem_range]
  constructor
  · rintro ⟨k, hk, rfl⟩
    omega
  · intro h
    exact ⟨(i - a).toNat, by omega, by omega⟩

theorem mem_renderCoords {led : Layout} {frame : SourceFrame} {ox oy : Int}
    {xy : Int × Int} :
    xy ∈ renderCoords led frame ox oy ↔
      (ox ≤ xy.1 ∧ xy.1 < overlapW led frame ox + ox) ∧
      (oy ≤ xy.2 ∧ xy.2 < overlapH led frame oy + oy) := by
  unfold renderCoords
  simp only [List.mem_flatMap, List.mem_map]
  constructor
  · rintro ⟨x, hx, y, hy, rfl⟩
    exact ⟨mem_intRange.mp hx, mem_intRange.mp hy⟩
  · rintro ⟨hx, hy⟩
    exact ⟨xy.1, mem_intRange.mpr hx, xy.2, mem_intRange.mpr hy, Prod.mk.eta⟩

/-- The output byte of a covered pixel: if `(x, y)` is visited by the loop,
is not skipped by the negativity guard, maps to physical pixel `p`, and no
other visited coordinate writes to `p`, then byte `p*3+c` of the output
buffer is the gamma of channel `c` of the composited source sample. -/
theorem getBufferFromImage_getElem_covered (led : Layout) (frame : SourceFrame)
    (bg : Color) (bright : Nat) (ox oy x y : Int) (p c : Nat)
    (hmem : (x, y) ∈ renderCoords led frame ox oy)
    (hx0 : 0 ≤ x) (hy0 : 0 ≤ y)
    (hp : mapIdx led y x = p) (hplt : p < led.numLEDs) (hc : c < 3)
    (huniq : ∀ xy ∈ renderCoords led frame ox oy,
      ¬(xy.1 < 0 ∨ xy.2 < 0) → mapIdx led xy.2 xy.1 = p → xy = (x, y)) :
    ((getBufferFromImage led frame (ox, oy) bg bright).2)[p * 3 + c]? =
      some (led.gamma (chan c (compositePixel bright bg
        (frame.pixels (x - ox).toNat (y - oy).toNat)))) := by
  unfold getBufferFromImage
  apply foldl_getElem_write _ _ _ (touches led p)
  · exact fun buf xy => renderStep_length _ _ _ _ _ _ _ _
  · exact fun buf xy _ hnt => renderStep_untouched _ _ _ _ _ _ _ _ _ _ hc hnt
  · intro buf xy hxy ht hlt
    have hxyEq : xy = (x, y) := huniq xy hxy ht.1 ht.2
    subst hxyEq
    exact renderStep_touch _ _ _ _ _ _ _ _ _ _ hc ht hlt
  · rw [initialBuffer_length]
    unfold bufByteCount
    omega
  · exact ⟨(x, y), hmem, by omega, hp⟩

/-! ## Characterization of the playback state machine -/

theorem step_eq (images : List RenderedFrame) (k : Nat) (c : Bool) (hk : k < images.length) :
    step images ⟨k, c⟩ =
      some (if images.length ≤ k + 1 then ⟨0, true⟩ else ⟨k + 1, c⟩, images[k]) := by
  simp [step, List.getElem?_eq_getElem hk]

theorem advanceN_char (images : List RenderedFrame) :
    ∀ (n k : Nat) (c : Bool), k < images.length →
      advanceN images n ⟨k, c⟩ =
        some ⟨(k + n) % images.length, c || decide (images.length ≤ k + n)⟩ := by
  intro n
  induction n with
  | zero =>
    intro k c hk
    have h1 : (k + 0) % images.length = k := by
      simpa using Nat.mod_eq_of_lt hk
    have h2 : decide (images.length ≤ k + 0) = false := by
      simp only [decide_eq_false_iff_not]
      omega
    rw [show advanceN images 0 ⟨k, c⟩ = some ⟨k, c⟩ from rfl, h1, h2, Bool.or_false]
  | succ n ih =>
    intro k c hk
    show (step images ⟨k, c⟩).bind (fun sf => advanceN images n sf.1) = _
    rw [step_eq images k c hk]
    by_cases hwrap : images.length ≤ k + 1
    · rw [if_pos hwrap]
      show advanceN images n ⟨0, true⟩ = _
      rw [ih 0 true (by omega)]
      have e1 : k + (n + 1) = images.length + n := by omega
      simp [e1, Nat.add_mod_left, Nat.le_add_right]
    · rw [if_neg hwrap]
      show advanceN images n ⟨k + 1, c⟩ = _
      rw [ih (k + 1) c (by omega)]
      have e1 : k + 1 + n = k + (n + 1) := by omega
      rw [e1]

/-! ## Claim C3: completion flag across one playback cycle -/

/-- C3 (counterexample): for the 2-frame sequence, the 3rd `advance()`
call does return the first frame again, but the completion flag observed
after that call is `true`, not `false` as the claim states — `step` never
clears `animComplete`. -/
theorem C3_counterexample :
    nthCallFrame [(none, [10, 10, 10]), (none, [20, 20, 20])] 3 = some (none, [10, 10, 10]) ∧
    completedAfter [(none, [10, 10, 10]), (none, [20, 20, 20])] 3 ≠ some false := by
  constructor
  · decide
  · decide

/-- C3 (amended): from the freshly-constructed state, `advance()` leaves
`completed = false` after each of the first `len-1` calls and `completed =
true` after the `len`-th call; the `(len+1)`-th call returns the first
frame again, but `completed` remains `true` (the `step` code sets
`animComplete` on wrap-around and never clears it). -/
theorem C3_sequence_completion (images : List RenderedFrame) (h : 1 ≤ images.length) :
    (∀ k, 1 ≤ k → k < images.length → completedAfter images k = some false) ∧
    completedAfter images images.length = some true ∧
    nthCallFrame images (images.length + 1) = images[0]? ∧
    completedAfter images (images.length + 1) = some true := by
  have h0 : 0 < images.length := h
  refine ⟨?_, ?_, ?_, ?_⟩
  · intro k hk1 hk2
    unfold completedAfter initState
    rw [advanceN_char images k 0 false h0]
    have e1 : decide (images.length ≤ 0 + k) = false := by
      simp only [decide_eq_false_iff_not]
      omega
    simp only [e1, Bool.or_false]
    rfl
  · unfold completedAfter initState
    rw [advanceN_char images images.length 0 false h0]
    simp
  · unfold nthCallFrame initState
    have e2 : images.length + 1 - 1 = images.length := by omega
    rw [e2, advanceN_char images images.length 0 false h0]
    have e3 : (0 + images.length) % images.length = 0 := by
      rw [Nat.zero_add, Nat.mod_self]
    have e4 : (false || decide (images.length ≤ 0 + images.length)) = true := by simp
    rw [e3, e4]
    simp only [Option.some_bind]
    rw [step_eq images 0 true h0]
    simp [List.getElem?_eq_getElem h0]
  · unfold completedAfter initState
    rw [advanceN_char images (images.length + 1) 0 false h0]
    simp

/-- C3 (witness): the amended completion behaviour evaluated on a concrete
one-frame sequence. -/
theorem C3_sequence_completion_witness :
    completedAfter [(none, [2, 2, 2])] 1 = some true :=
  (C3_sequence_completion [(none, [2, 2, 2])] (by decide)).2.1

/-! ## Claim C6: reset after any number of advances -/

/-- C6 (counterexample): after one `advance()` on a 1-frame sequence the
flag is `true`; `reset()` (`preRun`) restores the cursor to 0 but leaves
`animComplete = true`, contradicting the claim that it is set to false. -/
theorem C6_counterexample :
    (advanceN [(none, [7, 7, 7])] 1 initState).map preRun = some ⟨0, true⟩ ∧
    (advanceN [(none, [7, 7, 7])] 1 initState).map preRun ≠ some ⟨0, false⟩ := by
  constructor
  · decide
  · decide

/-- C6 (amended): after any number of `advance()` calls, `reset()`
(`preRun`, lines 144-145) restores the cursor to 0 but leaves the
`completed` flag unchanged — it does not set it to false. -/
theorem C6_reset_restores_cursor (images : List RenderedFrame) (n : Nat) (s : AnimState)
    (_h : advanceN images n initState = some s) :
    (preRun s).curImage = 0 ∧ (preRun s).animComplete = s.animComplete :=
  ⟨rfl, rfl⟩

/-- C6 (witness): the reset round-trip evaluated after one advance on a
concrete sequence. -/
theorem C6_reset_restores_cursor_witness :
    (preRun ⟨0, true⟩).curImage = 0 ∧ (preRun ⟨0, true⟩).animComplete = true :=
  C6_reset_restores_cursor [(none, [7, 7, 7])] 1 ⟨0, true⟩ (by decide)

/-! ## Claim C7: cursor range invariant and totality -/

/-- C7: on any sequence with at least one frame, from any state whose
cursor is in `[0, len)`, `advance()` (`step`) succeeds (no IndexError is
reachable) and the new cursor is again in `[0, len)` — the wrap-around
resets the cursor to 0 in the same call — and `reset()` (`preRun`) also
keeps the cursor in range. -/
theorem C7_cursor_invariant (images : List RenderedFrame) (s : AnimState)
    (h1 : 1 ≤ images.length) (h2 : s.curImage < images.length) :
    (∃ s' f, step images s = some (s', f) ∧ s'.curImage < images.length) ∧
    (preRun s).curImage < images.length := by
  obtain ⟨k, c⟩ := s
  have hk : k < images.length := h2
  constructor
  · refine ⟨if images.length ≤ k + 1 then ⟨0, true⟩ else ⟨k + 1, c⟩, images[k],
      step_eq images k c hk, ?_⟩
    by_cases hw : images.length ≤ k + 1
    · rw [if_pos hw]
      exact h1
    · rw [if_neg hw]
      show k + 1 < images.length
      omega
  · exact h1

/-- C7 (witness): the invariant evaluated on a concrete one-frame
sequence at the initial state. -/
theorem C7_cursor_invariant_witness :
    (∃ s' f, step [((none : Option Nat), [5, 5, 5])] ⟨0, false⟩ = some (s', f) ∧
      s'.curImage < [((none : Option Nat), [5, 5, 5])].length) ∧
    (preRun ⟨0, false⟩).curImage < [((none : Option Nat), [5, 5, 5])].length :=
  C7_cursor_invariant [(none, [5, 5, 5])] ⟨0, false⟩ (by decide) (by decide)

/-! ## Claim C4: shared auto-center offset -/

/-- C4: evaluating the still-image (folder) branch of the constructor at a
folder with one bitmap and the default offset `(0, 0)`: line 135 evaluates
`img.size[0]` where `img` is the *path string* from `imageList`, so the
construction raises `AttributeError` instead of computing the auto-center
offset from the first frame (the GIF branch, lines 112-119, shows the
intended computation). -/
theorem C4_folder_autocenter_raises :
    folderInit led1 (fun _ => frameTr) ["001.bmp", "002.bmp"] (0, 0) Off 255 =
      .error (.attributeError "str object has no attribute size") := by
  rfl

/-! ## Claim C9: master-brightness override of the brightness argument -/

/-- C9: lines 100-102: a brightness argument of 255 is replaced by the
layout's `masterBrightness` whenever the latter differs from 255, any other
argument value is used as given, so no argument can make the effective
brightness 255 on a layout whose master brightness is not 255; line 104
pre-scales the background color by this same effective brightness, and
`renderFrame` passes it to the per-pixel compositor. -/
theorem C9_master_brightness_override (led : Layout) (bgcolor : Color) (b : Nat) :
    (b = 255 → led.masterBrightness ≠ 255 → initBright led b = led.masterBrightness) ∧
    (b ≠ 255 → initBright led b = b) ∧
    (led.masterBrightness ≠ 255 → initBright led b ≠ 255) ∧
    initBgcolor led bgcolor b = color_scale bgcolor (initBright led b) := by
  refine ⟨?_, ?_, ?_, rfl⟩
  · intro hb hm
    simp [initBright, hb, hm]
  · intro hb
    simp [initBright, hb]
  · intro hm
    by_cases hb : b = 255
    · simp [initBright, hb, hm]
    · simp [initBright, hb]

/-- C9 (witness): the override evaluated on a layout with master
brightness 128. -/
theorem C9_master_brightness_override_witness :
    initBright led128 255 = led128.masterBrightness ∧ initBright led128 200 = 200 ∧
    initBright led128 255 ≠ 255 :=
  ⟨(C9_master_brightness_override led128 Off 255).1 rfl (by decide),
   (C9_master_brightness_override led128 Off 200).2.1 (by decide),
   (C9_master_brightness_override led128 Off 255).2.2.1 (by decide)⟩

/-! ## Claim C10: auto-centering triggered by the offset value -/

/-- C10 (counterexample): a 1×1 frame is strictly smaller than the 2×2
layout on both axes, yet the auto-center offset computed for the explicit
offset `(0, 0)` is `(0, 0)` itself — top-left placement — because
`(2 - 1) / 2 = 0`; so top-left placement of a smaller image is not
unreachable as the claim states. -/
theorem C10_counterexample :
    1 < led2.width ∧ 1 < led2.height ∧ gifAutoOffset led2 (0, 0) 1 1 = (0, 0) := by
  decide

/-- C10 (amended): auto-centering is triggered by the offset value
`(0, 0)` — an explicit `(0, 0)` yields the centered offset and any other
value is used verbatim — and top-left placement is unreachable on an axis
where the layout exceeds the frame by at least 2 pixels; when each margin
is at most 1 the centered offset is itself `(0, 0)`, i.e. top-left. -/
theorem C10_offset_value_triggers_centering (led : Layout) (off : Int × Int) (fw fh : Nat) :
    (gifAutoOffset led (0, 0) fw fh =
      ((if (fw : Int) < (led.width : Int) then ((led.width : Int) - (fw : Int)) / 2 else 0),
       (if (fh : Int) < (led.height : Int) then ((led.height : Int) - (fh : Int)) / 2 else 0))) ∧
    (off ≠ (0, 0) → gifAutoOffset led off fw fh = off) ∧
    (fw + 2 ≤ led.width → gifAutoOffset led off fw fh ≠ (0, 0)) := by
  refine ⟨by simp [gifAutoOffset], fun hoff => by unfold gifAutoOffset; rw [if_neg hoff], ?_⟩
  intro hfw hEq
  by_cases hoff : off = (0, 0)
  · rw [hoff] at hEq
    have hcond : (fw : Int) < (led.width : Int) := by omega
    simp only [gifAutoOffset, reduceIte, if_pos hcond, Prod.mk.injEq] at hEq
    have h1 : (1 : Int) ≤ ((led.width : Int) - (fw : Int)) / 2 := by omega
    exact absurd hEq.1 (by omega)
  · unfold gifAutoOffset at hEq
    rw [if_neg hoff] at hEq
    exact hoff hEq

/-- C10 (witness): the trigger behaviour evaluated on an 8×8 layout with a
3-wide frame. -/
theorem C10_offset_value_triggers_centering_witness :
    gifAutoOffset led8 (3, 1) 3 3 = (3, 1) ∧ gifAutoOffset led8 (0, 0) 3 3 ≠ (0, 0) :=
  ⟨(C10_offset_value_triggers_centering led8 (3, 1) 3 3).2.1 (by decide),
   (C10_offset_value_triggers_centering led8 (0, 0) 3 3).2.2 (by decide)⟩

/-! ## Per-pixel composite values -/

theorem compositePixel_alpha_zero (bright : Nat) (bg : Color) (px : RGBA) (ha : px.a = 0) :
    compositePixel bright bg px = if bright ≠ 255 then color_scale bg bright else bg := by
  simp only [compositePixel, ha, reduceIte]

theorem compositePixel_opaque (bg : Color) (px : RGBA) (ha : px.a = 255) :
    compositePixel 255 bg px =
      ⟨(px.r * 255) >>> 8, (px.g * 255) >>> 8, (px.b * 255) >>> 8⟩ := by
  simp [compositePixel, ha]

theorem chan_premul (c : Nat) (px : RGBA) :
    chan c ⟨(px.r * 255) >>> 8, (px.g * 255) >>> 8, (px.b * 255) >>> 8⟩ =
      (chan c ⟨px.r, px.g, px.b⟩ * 255) >>> 8 := by
  by_cases h0 : c = 0
  · simp [chan, h0]
  · by_cases h1 : c = 1 <;> simp [chan, h0, h1]

/-! ## Claim C1: fully transparent pixels -/

/-- C1 (counterexample): with brightness 128 and `bgColor = (255, 0, 0)`,
the pre-scaled background is `(128, 0, 0)`, but the output byte for the
transparent pixel is 64, not `gamma 128 = 128`: the `a == 0` branch falls
through to the `self._bright != 255` scaling on lines 76-77, so the
background color is brightness-scaled a second time. -/
theorem C1_counterexample :
    (renderFrame led1 frameTr (0, 0) ⟨255, 0, 0⟩ 128).2 = [64, 0, 0] ∧
    initBgcolor led1 ⟨255, 0, 0⟩ 128 = ⟨128, 0, 0⟩ ∧
    (renderFrame led1 frameTr (0, 0) ⟨255, 0, 0⟩ 128).2 ≠
      [led1.gamma 128, led1.gamma 0, led1.gamma 0] := by
  refine ⟨by decide, by decide, by decide⟩

/-- C1 (amended): for a covered pixel with `a == 0`, the output bytes are
the gamma of the constructor-scaled `bgColor` scaled by the effective
brightness a *second* time whenever that brightness is not 255 (and of the
once-scaled `bgColor` when it is 255); the result is independent of the
pixel's RGB samples, which do not occur in the conclusion. -/
theorem C1_transparent_pixel_bg (led : Layout) (frame : SourceFrame) (ox oy : Int)
    (bgcolor : Color) (brightness : Nat) (x y : Int) (p c : Nat)
    (hmem : (x, y) ∈ renderCoords led frame ox oy)
    (hx0 : 0 ≤ x) (hy0 : 0 ≤ y)
    (hp : mapIdx led y x = p) (hplt : p < led.numLEDs) (hc : c < 3)
    (ha : (frame.pixels (x - ox).toNat (y - oy).toNat).a = 0)
    (huniq : ∀ xy ∈ renderCoords led frame ox oy,
      ¬(xy.1 < 0 ∨ xy.2 < 0) → mapIdx led xy.2 xy.1 = p → xy = (x, y)) :
    ((renderFrame led frame (ox, oy) bgcolor brightness).2)[p * 3 + c]? =
      some (led.gamma (chan c
        (if initBright led brightness ≠ 255 then
          color_scale (initBgcolor led bgcolor brightness) (initBright led brightness)
        else initBgcolor led bgcolor brightness))) := by
  unfold renderFrame
  rw [getBufferFromImage_getElem_covered led frame (initBgcolor led bgcolor brightness)
    (initBright led brightness) ox oy x y p c hmem hx0 hy0 hp hplt hc huniq,
    compositePixel_alpha_zero _ _ _ ha]

/-- C1 (witness): the amended transparent-pixel value evaluated on a
concrete 1×1 layout with brightness 128. -/
theorem C1_transparent_pixel_bg_witness :
    ((renderFrame led1 frameTr (0, 0) ⟨255, 0, 0⟩ 128).2)[0 * 3 + 0]? =
      some (led1.gamma (chan 0
        (if initBright led1 128 ≠ 255 then
          color_scale (initBgcolor led1 ⟨255, 0, 0⟩ 128) (initBright led1 128)
        else initBgcolor led1 ⟨255, 0, 0⟩ 128))) :=
  C1_transparent_pixel_bg led1 frameTr 0 0 ⟨255, 0, 0⟩ 128 0 0 0 0 (by decide) (by decide)
    (by decide) (by decide) (by decide) (by decide) (by decide) (by decide)

/-! ## Claim C2: fully opaque identity composite -/

/-- C2 (counterexample): a fully opaque white pixel on a 1×1 layout with
identity gamma, brightness 255 and offset `(0, 0)` yields buffer
`[254, 254, 254]`, not `gamma(255) = 255` per channel: the premultiply
`(255 * 255) >> 8 = 254` darkens every nonzero channel, so the composite
is not the identity on the raw samples. -/
theorem C2_counterexample :
    (getBufferFromImage led1 white1 (0, 0) Off 255).2 = [254, 254, 254] ∧
    (getBufferFromImage led1 white1 (0, 0) Off 255).2 ≠
      [led1.gamma 255, led1.gamma 255, led1.gamma 255] := by
  refine ⟨by decide, by decide⟩

/-- C2 (amended): for a fully opaque source frame whose size equals the
layout size, rendered at brightness 255 and offset `(0, 0)`, each output
byte is the gamma of the *premultiplied* raw sample `(sample * 255) >> 8`
(one less than the sample for nonzero samples), written at the layout's
index position; gamma is always applied. -/
theorem C2_opaque_gamma_of_premultiplied (led : Layout) (frame : SourceFrame) (bg : Color)
    (x y p c : Nat)
    (hw : frame.width = led.width) (hh : frame.height = led.height)
    (hfullalpha : ∀ i j, i < frame.width → j < frame.height → (frame.pixels i j).a = 255)
    (hx : x < led.width) (hy : y < led.height)
    (hp : mapIdx led (y : Int) (x : Int) = p) (hplt : p < led.numLEDs) (hc : c < 3)
    (huniq : ∀ xy ∈ renderCoords led frame 0 0,
      ¬(xy.1 < 0 ∨ xy.2 < 0) → mapIdx led xy.2 xy.1 = p → xy = ((x : Int), (y : Int))) :
    ((getBufferFromImage led frame (0, 0) bg 255).2)[p * 3 + c]? =
      some (led.gamma ((chan c ⟨(frame.pixels x y).r, (frame.pixels x y).g,
        (frame.pixels x y).b⟩ * 255) >>> 8)) := by
  have hW : overlapW led frame 0 = (led.width : Int) := by
    unfold overlapW
    rw [hw]
    simp
  have hH : overlapH led frame 0 = (led.height : Int) := by
    unfold overlapH
    rw [hh]
    simp
  have hmem : ((x : Int), (y : Int)) ∈ renderCoords led frame 0 0 := by
    rw [mem_renderCoords, hW, hH]
    refine ⟨⟨by omega, by omega⟩, ⟨by omega, by omega⟩⟩
  rw [getBufferFromImage_getElem_covered led frame bg 255 0 0 (x : Int) (y : Int) p c hmem
    (by omega) (by omega) hp hplt hc huniq]
  have ex : ((x : Int) - 0).toNat = x := by omega
  have ey : ((y : Int) - 0).toNat = y := by omega
  rw [ex, ey, compositePixel_opaque _ _ (hfullalpha x y (by omega) (by omega)), chan_premul]

/-- C2 (witness): the amended opaque composite evaluated on a concrete
1×1 layout with a white source pixel. -/
theorem C2_opaque_gamma_of_premultiplied_witness :
    ((getBufferFromImage led1 white1 (0, 0) Off 255).2)[0 * 3 + 0]? =
      some (led1.gamma ((chan 0 ⟨(white1.pixels 0 0).r, (white1.pixels 0 0).g,
        (white1.pixels 0 0).b⟩ * 255) >>> 8)) :=
  C2_opaque_gamma_of_premultiplied led1 white1 Off 0 0 0 0 rfl rfl
    (fun _ _ _ _ => rfl) (by decide) (by decide) (by decide) (by decide) (by decide)
    (by decide)

/-! ## Claim C5: background fill outside the source footprint -/

/-- C5 (counterexample): on a layout whose gamma table maps 0 to 1, with
`bgColor = (0, 0, 0)` and a source frame that does not cover pixel 0, the
output byte is 0 — the raw zero fill — while the gamma-corrected,
brightness-scaled background channel is `gamma(0) = 1`: the background
fill on lines 55-59 is skipped entirely when the scaled `bgColor` equals
`(0, 0, 0)`, so those bytes never pass through the gamma table. -/
theorem C5_counterexample :
    (renderFrame ledC frameTr (1, 0) Off 255).2 = [0, 0, 0] ∧
    ledC.gamma (chan 0 (initBgcolor ledC Off 255)) = 1 ∧
    ((renderFrame ledC frameTr (1, 0) Off 255).2)[0]? ≠
      some (ledC.gamma (chan 0 (initBgcolor ledC Off 255))) := by
  refine ⟨by decide, by decide, by decide⟩

/-- C5 (amended): whenever the constructor-scaled `bgColor` is not
`(0, 0, 0)`, every physical pixel not written by the compositing loop
holds the gamma of the scaled background color; when the scaled `bgColor`
equals `(0, 0, 0)` the fill is skipped and such bytes stay raw 0. -/
theorem C5_background_outside_footprint (led : Layout) (frame : SourceFrame) (ox oy : Int)
    (bgcolor : Color) (brightness : Nat) (p c : Nat)
    (hp : p < led.numLEDs) (hc : c < 3)
    (hbg : initBgcolor led bgcolor brightness ≠ Off)
    (houtside : ∀ xy ∈ renderCoords led frame ox oy,
      ¬(xy.1 < 0 ∨ xy.2 < 0) → mapIdx led xy.2 xy.1 ≠ p) :
    ((renderFrame led frame (ox, oy) bgcolor brightness).2)[p * 3 + c]? =
      some (led.gamma (chan c (initBgcolor led bgcolor brightness))) := by
  have hmain := foldl_getElem_untouched
    (renderStep led (initBright led brightness) (initBgcolor led bgcolor brightness) frame ox oy)
    (p * 3 + c) (touches led p) (renderCoords led frame ox oy)
    (initialBuffer led (initBgcolor led bgcolor brightness))
    (fun buf xy _ hnt => renderStep_untouched _ _ _ _ _ _ _ _ _ _ hc hnt)
    (fun xy hxy ht => houtside xy hxy ht.1 ht.2)
  exact hmain.trans (initialBuffer_getElem led _ p c hp hc hbg)

/-- C5 (witness): the amended background fill evaluated for a nonzero
background on a pixel not covered by the source frame. -/
theorem C5_background_outside_footprint_witness :
    ((renderFrame led1 frameTr (1, 0) ⟨10, 20, 30⟩ 255).2)[0 * 3 + 0]? =
      some (led1.gamma (chan 0 (initBgcolor led1 ⟨10, 20, 30⟩ 255))) :=
  C5_background_outside_footprint led1 frameTr 1 0 ⟨10, 20, 30⟩ 255 0 0 (by decide)
    (by decide) (by decide) (by decide)

/-! ## Claim C8: compositor error behaviour -/

/-- C8 (counterexample): the compositor evaluated at a zero-area frame
(width 0) returns a normal `(duration, buffer)` result — the
background-filled buffer — and raises nothing, contradicting the claim
that it fails with `InvalidFrame` exactly on zero-area frames: no such
check exists in `_getBufferFromImage`; the overlap width is 0 and the
loop body simply never runs. -/
theorem C8_counterexample :
    getBufferFromImage led1 frame0 (0, 0) Off 255 = (some 40, [0, 0, 0]) := by
  decide

/-- C8 (amended): the compositor is total on *all* inputs, zero-area
frames included: it always returns the frame's duration paired with a
buffer of exactly `bufByteCount` bytes, and has no failure path at all. -/
theorem C8_compositor_total (led : Layout) (frame : SourceFrame) (offset : Int × Int)
    (bg : Color) (bright : Nat) :
    (getBufferFromImage led frame offset bg bright).1 = frame.duration ∧
    (getBufferFromImage led frame offset bg bright).2.length = bufByteCount led := by
  refine ⟨rfl, ?_⟩
  show ((renderCoords led frame offset.1 offset.2).foldl
    (renderStep led bright bg frame offset.1 offset.2) (initialBuffer led bg)).length = _
  rw [foldl_length _ _ _ (fun buf xy => renderStep_length _ _ _ _ _ _ _ _),
    initialBuffer_length]

end ImageAnim
